import Mathlib

/-!
# Jobbergate — shallow embedding of the Applications API and template services

This file embeds, in Lean, the parts of the Jobbergate repository that the
verified properties talk about:

* the `applications` table (`jobbergate_api/apps/applications/models.py`) and
  the `job_scripts` table that references it through a foreign key
  (`alembic/versions/20211216_120231--d3388a22e0e9_...py`);
* the HTTP route handlers of `jobbergate_api/apps/applications/routers.py`
  (`applications_create`, `applications_upload`, `applications_delete`,
  `application_delete`, `applications_list`, `application_update`);
* the `JobScriptTemplateService.get` lookup dispatch and the
  `JobScriptTemplateFilesService.render` Jinja2 rendering of
  `jobbergate_api/apps/job_script_templates/service.py`;
* the CLI parameter-mapping assembly exercised by
  `jobbergate-cli/tests/subapps/job_scripts/test_app.py`.

The database is modelled as explicit lists of rows, object storage as an
association list from keys to contents, and each route handler as a pure
function from a state to a result paired with the successor state.  A raised
`HTTPException` (or a structured foreign-key error) becomes an `Except.error`
value; the surrounding `database.transaction()` block of the Python code rolls
the write back on such an exception, so an erroring handler returns the
original state unchanged.
-/

/-- Timestamps are abstracted as natural numbers; the database's `func.now()`
is passed in explicitly as a `now` argument where a handler stamps a column. -/
abbrev Timestamp := Nat

/-- A row of the `applications` table, following the columns declared in
`jobbergate_api/apps/applications/models.py`: the identifier column is
nullable and unique, the description defaults to the empty string, the
uploaded flag defaults to false, and both timestamps default to `now()` with
`updated_at` additionally stamped on every update (`onupdate=func.now()`). -/
structure ApplicationRow where
  id : Nat
  application_name : String
  application_identifier : Option String
  application_description : String
  application_owner_email : String
  application_file : String
  application_config : String
  application_uploaded : Bool
  created_at : Timestamp
  updated_at : Timestamp
deriving DecidableEq, Repr

/-- A row of the `job_scripts` table from the initial Alembic migration; its
`application_id` column carries `ForeignKeyConstraint(["application_id"],
["applications.id"])` with no cascade, so the database rejects deleting an
application that a job script still references. -/
structure JobScriptRow where
  id : Nat
  job_script_name : String
  job_script_description : Option String
  job_script_data_as_string : String
  job_script_owner_email : String
  application_id : Option Nat
  created_at : Timestamp
  updated_at : Timestamp
deriving DecidableEq, Repr

/-- Key/value string pairs: used both for Jinja2 parameter mappings and for
the object-store contents (key to stored bytes, as strings). -/
abbrev Params := List (String × String)

/-- First-match lookup in an association list; this is Python `dict` lookup
for lists whose keys are distinct. -/
def lookupParam (ps : Params) (k : String) : Option String :=
  (ps.find? (fun p => p.1 == k)).map (fun p => p.2)

/-- Python `dict` assignment `d[k] = v` on the association-list model: replace
the value at an existing key in place, otherwise append the new pair. The
object store's `put` has the same upsert shape (S3 overwrites an existing
key). -/
def setParam (ps : Params) (k v : String) : Params :=
  if ps.any (fun p => p.1 == k) then
    ps.map (fun p => if p.1 == k then (k, v) else p)
  else
    ps ++ [(k, v)]

/-- The combined state a route handler acts on: the two database tables and
the S3 bucket contents. -/
structure DBState where
  applications : List ApplicationRow
  job_scripts : List JobScriptRow
  s3_objects : Params
deriving DecidableEq, Repr

/-- The errors a handler surfaces: `HTTPException(status_code, detail)`, or
the structured foreign-key conflict that `handle_fk_error` produces, naming
the referencing table. -/
inductive ApiError where
  | httpError (statusCode : Nat) (detail : String)
  | fkConflict (referencingTable : String)
deriving DecidableEq, Repr

/-- The request body of `POST /applications/` (`ApplicationCreateRequest`):
the owner email is overwritten from the token before insertion, so it is not
part of the request model here; the description is optional and falls back to
the column default `""`. -/
structure ApplicationCreateRequest where
  application_name : String
  application_identifier : Option String
  application_description : Option String
  application_file : String
  application_config : String
deriving DecidableEq, Repr

/-- The fresh primary key the database sequence hands to an insert: one past
the largest id present. -/
def nextApplicationId (apps : List ApplicationRow) : Nat :=
  (apps.foldl (fun m r => max m r.id) 0) + 1

/-- `applications_create` (`routers.py`): inside a transaction, insert the
request (owner email taken from the token), mapping a unique-constraint
violation on `application_identifier` to HTTP 409; on success re-fetch the
inserted row so the response reflects the column defaults.  The Python code
issues the insert and lets the database raise; since the transaction rolls
the insert back on the integrity error, that is observably the same as
checking the unique constraint first, which is how it is written here. -/
def applications_create (st : DBState) (now : Timestamp) (userEmail : String)
    (application : ApplicationCreateRequest) : Except ApiError ApplicationRow × DBState :=
  let duplicate :=
    match application.application_identifier with
    | some ident => st.applications.any (fun r => r.application_identifier == some ident)
    | none => false
  if duplicate then
    (.error (.httpError 409 "duplicate key value violates unique constraint"), st)
  else
    let row : ApplicationRow :=
      { id := nextApplicationId st.applications
        application_name := application.application_name
        application_identifier := application.application_identifier
        application_description := application.application_description.getD ""
        application_owner_email := userEmail
        application_file := application.application_file
        application_config := application.application_config
        application_uploaded := false
        created_at := now
        updated_at := now }
    (.ok row, { st with applications := st.applications ++ [row] })

/-- `applications_upload` (`routers.py`): reject a declared `Content-Length`
above `settings.MAX_UPLOAD_FILE_SIZE` with HTTP 413 before touching storage;
otherwise `s3man.put` the tarball under the key derived from the application
id and then mark `application_uploaded` on whichever rows match the id (the
handler never checks that the row exists; `updated_at` is stamped by the
table's `onupdate`). -/
def applications_upload (st : DBState) (maxUploadFileSize : Nat) (now : Timestamp)
    (application_id : Nat) (upload_file : String) (content_length : Nat) :
    Except ApiError Unit × DBState :=
  if content_length > maxUploadFileSize then
    (.error (.httpError 413 "Uploaded files cannot exceed MAX_UPLOAD_FILE_SIZE bytes."), st)
  else
    let s3' := setParam st.s3_objects (toString application_id) upload_file
    let apps' := st.applications.map (fun r =>
      if r.id == application_id then
        { r with application_uploaded := true, updated_at := now }
      else r)
    (.ok (), { st with s3_objects := s3', applications := apps' })

/-- `applications_delete` (`routers.py`, `DELETE
/applications/{application_id}/upload`): 404 when the row is missing; return
immediately (204, no write anywhere) when the row's uploaded flag is already
false; otherwise delete the S3 object and clear the flag. -/
def applications_delete (st : DBState) (now : Timestamp) (application_id : Nat) :
    Except ApiError Unit × DBState :=
  match st.applications.find? (fun r => r.id == application_id) with
  | none => (.error (.httpError 404 "Application not found."), st)
  | some application =>
    if application.application_uploaded = false then
      (.ok (), st)
    else
      let s3' := st.s3_objects.filter (fun o => !(o.1 == toString application_id))
      let apps' := st.applications.map (fun r =>
        if r.id == application_id then
          { r with application_uploaded := false, updated_at := now }
        else r)
      (.ok (), { st with s3_objects := s3', applications := apps' })

/-- `application_delete` (`routers.py`, `DELETE /applications/{application_id}`):
404 when the row is missing; otherwise run the delete under
`handle_fk_error`.  The `job_scripts.application_id` foreign key of the
initial migration has no cascade, so the database rejects the delete while a
job script still references the row.

Modelled from the spec: `handle_fk_error` itself lives in
`jobbergate_api/storage.py`, which is not among the provided sources; per the
spec's error taxonomy it converts the database's foreign-key violation into a
structured error naming the referencing table, leaving the transaction rolled
back.  On a successful delete the S3 object is removed as well (a missing key
is ignored). -/
def application_delete (st : DBState) (application_id : Nat) :
    Except ApiError Unit × DBState :=
  match st.applications.find? (fun r => r.id == application_id) with
  | none => (.error (.httpError 404 "Application not found."), st)
  | some _ =>
    if st.job_scripts.any (fun js => js.application_id == some application_id) then
      (.error (.fkConflict "job_scripts"), st)
    else
      let apps' := st.applications.filter (fun r => !(r.id == application_id))
      let s3' := st.s3_objects.filter (fun o => !(o.1 == toString application_id))
      (.ok (), { st with applications := apps', s3_objects := s3' })

/-- `applications_list` (`routers.py`): start from `applications_table.select()`,
restrict to the caller's rows when `user` is set, drop rows whose identifier
is NULL unless `all` is set, then hand the query to `package_response` for
pagination.

Modelled from the spec: the `Pagination` helper
(`jobbergate_api/pagination.py`) is not among the provided sources; per the
spec the list is "paginated with total count", modelled as the window of
`limit` rows starting at `page * limit`. -/
def applications_list (st : DBState) (userEmail : String) (user : Bool) (all : Bool)
    (page : Nat) (limit : Nat) : List ApplicationRow :=
  let q := st.applications
  let q := if user then q.filter (fun r => r.application_owner_email == userEmail) else q
  let q := if all then q else q.filter (fun r => !r.application_identifier.isNone)
  (q.drop (page * limit)).take limit

/-- The request body of `PUT /applications/{application_id}`
(`ApplicationUpdateRequest`): every field is optional, and
`application.dict(exclude_unset=True)` forwards exactly the supplied fields to
the UPDATE statement — a `none` here is a field absent from the request. -/
structure ApplicationUpdateRequest where
  application_name : Option String := none
  application_identifier : Option String := none
  application_description : Option String := none
  application_file : Option String := none
  application_config : Option String := none
deriving DecidableEq, Repr

/-- The effect of the UPDATE statement on a matched row: each supplied field
is overwritten, each omitted field keeps its value, and `updated_at` is
stamped by the table's `onupdate=func.now()`. -/
def applyApplicationUpdate (application : ApplicationUpdateRequest) (now : Timestamp)
    (r : ApplicationRow) : ApplicationRow :=
  { r with
    application_name := application.application_name.getD r.application_name
    application_identifier :=
      match application.application_identifier with
      | some ident => some ident
      | none => r.application_identifier
    application_description :=
      application.application_description.getD r.application_description
    application_file := application.application_file.getD r.application_file
    application_config := application.application_config.getD r.application_config
    updated_at := now }

/-- `application_update` (`routers.py`): inside a transaction, issue the
UPDATE restricted to the given id with exactly the supplied fields, mapping a
unique-constraint violation on `application_identifier` (another row already
carries the supplied identifier) to HTTP 409 with the transaction rolled
back; then re-fetch the row.  When no row has the id, `fetch_one` returns
`None` and `ApplicationResponse.parse_obj(None)` raises a validation error
out of the handler (modelled as HTTP 500), again rolling the transaction
back. -/
def application_update (st : DBState) (now : Timestamp) (application_id : Nat)
    (application : ApplicationUpdateRequest) : Except ApiError ApplicationRow × DBState :=
  let violates :=
    match application.application_identifier with
    | some ident => st.applications.any (fun r =>
        !(r.id == application_id) && r.application_identifier == some ident)
    | none => false
  if violates then
    (.error (.httpError 409 "duplicate key value violates unique constraint"), st)
  else
    let apps' := st.applications.map (fun r =>
      if r.id == application_id then applyApplicationUpdate application now r else r)
    match apps'.find? (fun r => r.id == application_id) with
    | none => (.error (.httpError 500 "validation error"), st)
    | some r => (.ok r, { st with applications := apps' })

/-- A row of the `job_script_templates` table as used by
`JobScriptTemplateService`: only the `id` and the nullable unique
`identifier` columns take part in the lookup dispatch; `id` is kept as `Int`
to match the Python `int` branch of `isinstance`. -/
structure JobScriptTemplateRow where
  id : Int
  identifier : Option String
  name : String
  owner_email : String
deriving DecidableEq, Repr

/-- The dynamically-typed `id_or_identifier` argument of
`JobScriptTemplateService.get`: a Python `str`, a Python `int`, or a value of
any other type. -/
inductive IdOrIdentifier where
  | ofStr (s : String)
  | ofInt (n : Int)
  | ofOther
deriving DecidableEq, Repr

/-- `_locate_by_id_or_identifier` (`job_script_templates/service.py`): add a
WHERE clause on the `identifier` column for a `str` argument, on the `id`
column for an `int` argument, and raise `ValueError` for anything else.  The
query's row set under each clause is returned directly. -/
def _locate_by_id_or_identifier (id_or_identifier : IdOrIdentifier)
    (rows : List JobScriptTemplateRow) : Except String (List JobScriptTemplateRow) :=
  match id_or_identifier with
  | .ofStr s => .ok (rows.filter (fun r => r.identifier == some s))
  | .ofInt n => .ok (rows.filter (fun r => r.id == n))
  | .ofOther => .error "id_or_identifier must be a string or integer"

/-- SQLAlchemy's `Result.scalar_one_or_none`: `none` for an empty result, the
row for a singleton result, and `MultipleResultsFound` otherwise. -/
def scalar_one_or_none : List JobScriptTemplateRow →
    Except String (Option JobScriptTemplateRow)
  | [] => .ok none
  | [r] => .ok (some r)
  | _ => .error "Multiple rows were found when exactly one or none was required"

/-- `JobScriptTemplateService.get`: run the located query and take
`scalar_one_or_none` of its result. -/
def job_script_template_get (rows : List JobScriptTemplateRow)
    (id_or_identifier : IdOrIdentifier) : Except String (Option JobScriptTemplateRow) :=
  match _locate_by_id_or_identifier id_or_identifier rows with
  | .error e => .error e
  | .ok located => scalar_one_or_none located

/-- A Jinja2 template, abstracted to its sequence of literal text runs and
`{{ name }}` variable placeholders. -/
inductive TemplateSeg where
  | lit (s : String)
  | var (name : String)
deriving DecidableEq, Repr

/-- A template file's content as its segment sequence. -/
abbrev Jinja2Template := List TemplateSeg

/-- Jinja2's default-environment rendering, as invoked by
`Template(file_content.decode("utf-8")).render(**parameters)` in
`JobScriptTemplateFilesService.render`: the default `Undefined` class prints
as the empty string, so a placeholder missing from the mapping is replaced by
`""` and rendering still succeeds. -/
def jinjaRender : Jinja2Template → Params → String
  | [], _ => ""
  | .lit s :: rest, parameters => s ++ jinjaRender rest parameters
  | .var n :: rest, parameters =>
      ((lookupParam parameters n).getD "") ++ jinjaRender rest parameters

/-- `JobScriptTemplateFilesService.render` (`job_script_templates/service.py`):
fetch the file content and return `str(Template(content).render(**parameters))`;
an exception during rendering would surface to the caller as an error, so the
result is an `Except`. -/
def render (template_file : Jinja2Template) (parameters : Params) :
    Except String String :=
  .ok (jinjaRender template_file parameters)

/-- The placeholder names a template requires: the variables occurring in it. -/
def templatePlaceholders : Jinja2Template → List String
  | [] => []
  | .lit _ :: rest => templatePlaceholders rest
  | .var n :: rest => n :: templatePlaceholders rest

/-- Whether some placeholder of the template is absent from the parameter
mapping. -/
def missingPlaceholder (template_file : Jinja2Template) (parameters : Params) : Bool :=
  (templatePlaceholders template_file).any (fun n => (lookupParam parameters n).isNone)

/-- Rendering as the spec's words describe it, for comparison with `render`:
fail as soon as a required placeholder is missing from the mapping, otherwise
produce the fully substituted document. -/
def strictSpecRender : Jinja2Template → Params → Option String
  | [], _ => some ""
  | .lit s :: rest, parameters => (strictSpecRender rest parameters).map (s ++ ·)
  | .var n :: rest, parameters =>
      match lookupParam parameters n with
      | none => none
      | some v => (strictSpecRender rest parameters).map (v ++ ·)

/-- Modelled from the spec: the CLI's assembly of the parameter mapping for
template rendering (`jobbergate_cli.subapps.job_scripts.tools`, not among the
provided sources; exercised by
`tests/subapps/job_scripts/test_app.py::test_create__non_fast_mode_and_job_submission`).
Per the spec the mapping is built from the static config section, then the
interactively-collected answers, then the externally supplied parameter file,
with later sources taking precedence on colliding keys — Python's
`dict.update` applied in that order. -/
def assembleParameters (config interactive paramFile : Params) : Params :=
  let withInteractive := interactive.foldl (fun acc kv => setParam acc kv.1 kv.2) config
  paramFile.foldl (fun acc kv => setParam acc kv.1 kv.2) withInteractive

/-! ## Association-list lemmas -/

/-- The keys of a parameter mapping. -/
def paramKeys (ps : Params) : List String := ps.map Prod.fst

theorem lookupParam_eq_none_of_not_mem_keys {ps : Params} {k : String}
    (h : k ∉ paramKeys ps) : lookupParam ps k = none := by
  induction ps with
  | nil => rfl
  | cons p rest ih =>
    simp only [paramKeys, List.map_cons, List.mem_cons, not_or] at h
    simp only [lookupParam, List.find?_cons]
    have hne : (p.1 == k) = false := by
      simp only [beq_eq_false_iff_ne, ne_eq]
      exact fun hk => h.1 hk.symm
    rw [hne]
    exact ih h.2

theorem lookupParam_setParam_self (ps : Params) (k v : String) :
    lookupParam (setParam ps k v) k = some v := by
  unfold setParam
  by_cases hany : ps.any (fun p => p.1 == k)
  · rw [if_pos hany]
    induction ps with
    | nil => simp at hany
    | cons p rest ih =>
      simp only [List.map_cons, lookupParam, List.find?_cons]
      by_cases hp : (p.1 == k)
      · rw [if_pos hp]
        simp
      · rw [if_neg hp]
        have hp' : ((p.1, p.2).1 == k) = false := by simpa using hp
        simp only [hp']
        simp only [List.any_cons, hp', Bool.false_or] at hany
        exact ih hany
  · rw [if_neg hany]
    induction ps with
    | nil => simp [lookupParam]
    | cons p rest ih =>
      simp only [List.any_cons, Bool.or_eq_true, not_or] at hany
      have hp : (p.1 == k) = false := by
        cases h : (p.1 == k) with
        | true => exact absurd h hany.1
        | false => rfl
      simp only [List.cons_append, lookupParam, List.find?_cons, hp]
      exact ih (by simpa using hany.2)

theorem lookupParam_map_update_ne (ps : Params) (k v k' : String) (h : k' ≠ k) :
    lookupParam (ps.map (fun p => if p.1 == k then (k, v) else p)) k' = lookupParam ps k' := by
  induction ps with
  | nil => rfl
  | cons p rest ih =>
    simp only [List.map_cons, lookupParam, List.find?_cons]
    by_cases hp : (p.1 == k)
    · rw [if_pos hp]
      have hk : p.1 = k := by simpa using hp
      have h1 : ((k, v).1 == k') = false := by
        simp only [beq_eq_false_iff_ne, ne_eq]
        exact fun hkk => h hkk.symm
      have h2 : (p.1 == k') = false := by
        simp only [beq_eq_false_iff_ne, ne_eq, hk]
        exact fun hkk => h hkk.symm
      simp only [h1, h2]
      simpa [lookupParam] using ih
    · rw [if_neg hp]
      by_cases hp' : (p.1 == k')
      · simp [hp']
      · have hpf : (p.1 == k') = false := by simpa using hp'
        simp only [hpf]
        simpa [lookupParam] using ih

theorem lookupParam_setParam_ne (ps : Params) (k v k' : String) (h : k' ≠ k) :
    lookupParam (setParam ps k v) k' = lookupParam ps k' := by
  unfold setParam
  by_cases hany : ps.any (fun p => p.1 == k)
  · rw [if_pos hany]
    exact lookupParam_map_update_ne ps k v k' h
  · rw [if_neg hany]
    simp only [lookupParam, List.find?_append]
    cases hf : ps.find? (fun p => p.1 == k') with
    | some p => simp
    | none =>
      have hkk : ((k, v).1 == k') = false := by
        simp only [beq_eq_false_iff_ne, ne_eq]
        exact fun hkk => h hkk.symm
      simp [List.find?, hkk]

theorem lookupParam_mergeFold (ov : Params) (base : Params) (k : String)
    (hov : (paramKeys ov).Nodup) :
    lookupParam (ov.foldl (fun acc kv => setParam acc kv.1 kv.2) base) k =
      (lookupParam ov k).or (lookupParam base k) := by
  induction ov generalizing base with
  | nil => simp [lookupParam]
  | cons kv rest ih =>
    simp only [paramKeys, List.map_cons, List.nodup_cons] at hov
    simp only [List.foldl_cons]
    rw [ih (setParam base kv.1 kv.2) hov.2]
    by_cases hk : k = kv.1
    · have hrest : lookupParam rest k = none :=
        lookupParam_eq_none_of_not_mem_keys (by rw [hk]; exact hov.1)
      have hhead : lookupParam (kv :: rest) k = some kv.2 := by
        simp [lookupParam, List.find?_cons, hk]
      rw [hrest, hhead, hk, lookupParam_setParam_self]
      simp
    · have hhead : lookupParam (kv :: rest) k = lookupParam rest k := by
        have : (kv.1 == k) = false := by
          simp only [beq_eq_false_iff_ne, ne_eq]
          exact fun hkk => hk hkk.symm
        simp [lookupParam, List.find?_cons, this]
      rw [lookupParam_setParam_ne base kv.1 kv.2 k hk, hhead]

theorem scalar_one_or_none_eq_head? (rows : List JobScriptTemplateRow)
    (h : rows.length ≤ 1) : scalar_one_or_none rows = .ok rows.head? := by
  match rows with
  | [] => rfl
  | [r] => rfl
  | a :: b :: rest => simp at h

theorem find?_id_of_mem_nodup (l : List ApplicationRow) (a : ApplicationRow)
    (hn : (l.map ApplicationRow.id).Nodup) (hmem : a ∈ l) :
    l.find? (fun r => r.id == a.id) = some a := by
  induction l with
  | nil => simp at hmem
  | cons b rest ih =>
    simp only [List.map_cons, List.nodup_cons] at hn
    rw [List.find?_cons]
    by_cases hb : (b.id == a.id)
    · have hid : b.id = a.id := by simpa using hb
      have hab : a = b := by
        rcases List.mem_cons.mp hmem with h | h
        · exact h
        · exact absurd (hid ▸ List.mem_map_of_mem ApplicationRow.id h) hn.1
      simp [hb, hab]
    · have hab : a ≠ b := fun h => hb (by rw [h]; simp)
      have hmem' : a ∈ rest := by
        rcases List.mem_cons.mp hmem with h | h
        · exact absurd h hab
        · exact h
      have hbf : (b.id == a.id) = false := by simpa using hb
      simp only [hbf]
      exact ih hn.2 hmem'

theorem find?_map_update (l : List ApplicationRow) (a : ApplicationRow) (i : Nat)
    (f : ApplicationRow → ApplicationRow) (hf : ∀ r, (f r).id = r.id)
    (hn : (l.map ApplicationRow.id).Nodup) (hmem : a ∈ l) (hid : a.id = i) :
    (l.map (fun r => if r.id == i then f r else r)).find? (fun r => r.id == i) =
      some (f a) := by
  induction l with
  | nil => simp at hmem
  | cons b rest ih =>
    simp only [List.map_cons, List.nodup_cons] at hn
    simp only [List.map_cons]
    by_cases hb : (b.id == i)
    · have hbid : b.id = i := by simpa using hb
      have hab : a = b := by
        rcases List.mem_cons.mp hmem with h | h
        · exact h
        · have : a.id ∈ rest.map ApplicationRow.id := List.mem_map_of_mem ApplicationRow.id h
          rw [hid, ← hbid] at this
          exact absurd this hn.1
      rw [if_pos hb, List.find?_cons]
      have : ((f b).id == i) = true := by
        simp only [hf b, beq_iff_eq]
        exact hbid
      simp [this, hab]
    · have hbf : (b.id == i) = false := by simpa using hb
      rw [if_neg (by simp [hbf]), List.find?_cons]
      simp only [hbf]
      have hmem' : a ∈ rest := by
        rcases List.mem_cons.mp hmem with h | h
        · exact absurd (h ▸ hid : b.id = i) (by simpa using hb)
        · exact h
      exact ih hn.2 hmem'

theorem map_update_eq_of_no_match (l : List ApplicationRow) (i : Nat)
    (f : ApplicationRow → ApplicationRow) (h : ∀ r ∈ l, ¬r.id = i) :
    l.map (fun r => if r.id == i then f r else r) = l := by
  have hcongr : l.map (fun r => if r.id == i then f r else r) = l.map id :=
    List.map_congr_left (fun a ha => by simp [h a ha])
  simpa using hcongr

theorem mem_map_update_of_ne (l : List ApplicationRow) (i : Nat)
    (f : ApplicationRow → ApplicationRow) (a : ApplicationRow)
    (hmem : a ∈ l) (hne : a.id ≠ i) :
    a ∈ l.map (fun r => if r.id == i then f r else r) :=
  List.mem_map.mpr ⟨a, hmem, by simp [hne]⟩

theorem exists_page_mem {α : Type} (l : List α) (x : α) (hx : x ∈ l)
    (limit : Nat) (hl : 0 < limit) :
    ∃ page, x ∈ (l.drop (page * limit)).take limit := by
  obtain ⟨i, hi, hget⟩ := List.mem_iff_getElem.mp hx
  refine ⟨i / limit, ?_⟩
  have hmod : i % limit < limit := Nat.mod_lt _ hl
  have hdm : limit * (i / limit) + i % limit = i := Nat.div_add_mod i limit
  have hn_add : i / limit * limit + i % limit = i := by rw [Nat.mul_comm]; exact hdm
  rw [List.mem_iff_getElem?]
  refine ⟨i % limit, ?_⟩
  rw [List.getElem?_take, if_pos hmod, List.getElem?_drop, hn_add]
  rw [List.getElem?_eq_getElem hi]
  exact congrArg some hget

/-! ## Rendering lemmas -/

theorem jinjaRender_of_strictSpecRender (template_file : Jinja2Template)
    (parameters : Params) (s : String)
    (h : strictSpecRender template_file parameters = some s) :
    jinjaRender template_file parameters = s := by
  induction template_file generalizing s with
  | nil =>
    simp only [strictSpecRender, Option.some_inj] at h
    simp [jinjaRender, h]
  | cons seg rest ih =>
    cases seg with
    | lit t =>
      simp only [strictSpecRender, Option.map_eq_some'] at h
      obtain ⟨s1, hs1, rfl⟩ := h
      simp [jinjaRender, ih s1 hs1]
    | var n =>
      simp only [strictSpecRender] at h
      cases hl : lookupParam parameters n with
      | none => rw [hl] at h; simp at h
      | some v =>
        rw [hl] at h
        simp only [Option.map_eq_some'] at h
        obtain ⟨s1, hs1, rfl⟩ := h
        simp [jinjaRender, hl, ih s1 hs1]

theorem strictSpecRender_eq_none_of_missing (template_file : Jinja2Template)
    (parameters : Params)
    (h : missingPlaceholder template_file parameters = true) :
    strictSpecRender template_file parameters = none := by
  induction template_file with
  | nil => simp [missingPlaceholder, templatePlaceholders] at h
  | cons seg rest ih =>
    cases seg with
    | lit t =>
      have hrest : missingPlaceholder rest parameters = true := by
        simpa [missingPlaceholder, templatePlaceholders] using h
      simp [strictSpecRender, ih hrest]
    | var n =>
      simp only [missingPlaceholder, templatePlaceholders, List.any_cons,
        Bool.or_eq_true] at h
      cases hl : lookupParam parameters n with
      | none => simp [strictSpecRender, hl]
      | some v =>
        have hrest : missingPlaceholder rest parameters = true := by
          rcases h with h | h
          · rw [hl] at h; simp at h
          · simpa [missingPlaceholder] using h
        simp [strictSpecRender, hl, ih hrest]

/-! ## Claim theorems -/

/-- C1, counterexample to the claim as stated: the template consisting of the
single required placeholder `{{ foo }}` rendered against the empty parameter
mapping has a missing required placeholder, yet
`JobScriptTemplateFilesService.render` does not fail — Jinja2's default
environment substitutes the empty string for the undefined variable and the
call returns the (partially empty) document `""` instead of surfacing a
rendering error. -/
theorem render_missing_placeholder_counterexample :
    missingPlaceholder [TemplateSeg.var "foo"] [] = true ∧
      render [TemplateSeg.var "foo"] [] = .ok "" := by
  constructor
  · rfl
  · rfl

/-- C1, amended: rendering a template never fails on a missing placeholder —
Jinja2's default `Undefined` renders as the empty string, so `render` always
returns a document (conjunct 1); whenever the mapping supplies every required
placeholder (that is, whenever the spec-style strict renderer produces a
document), `render` returns exactly that single fully rendered document
(conjunct 2); and the spec-style strict renderer fails precisely in the
missing-placeholder situations where the code instead substitutes the empty
string (conjunct 3). -/
theorem render_total_and_faithful_when_complete (template_file : Jinja2Template)
    (parameters : Params) :
    (∃ out, render template_file parameters = .ok out) ∧
    (∀ s, strictSpecRender template_file parameters = some s →
      render template_file parameters = .ok s) ∧
    (missingPlaceholder template_file parameters = true →
      strictSpecRender template_file parameters = none) := by
  refine ⟨⟨jinjaRender template_file parameters, rfl⟩, ?_, ?_⟩
  · intro s hs
    unfold render
    rw [jinjaRender_of_strictSpecRender template_file parameters s hs]
  · exact strictSpecRender_eq_none_of_missing template_file parameters

/-- C1 witness: instantiating the amended theorem at the complete mapping
`{name ↦ World}` for the template `Hello {{ name }}` yields the fully rendered
document, and at the empty mapping for `{{ foo }}` the strict spec-style
renderer fails while `render` still succeeds. -/
theorem render_total_and_faithful_when_complete_witness :
    render [TemplateSeg.lit "Hello ", TemplateSeg.var "name"] [("name", "World")] =
      .ok "Hello World" ∧
    strictSpecRender [TemplateSeg.var "foo"] [] = none := by
  constructor
  · exact (render_total_and_faithful_when_complete
      [TemplateSeg.lit "Hello ", TemplateSeg.var "name"] [("name", "World")]).2.1
      "Hello World" (by decide)
  · exact (render_total_and_faithful_when_complete
      [TemplateSeg.var "foo"] []).2.2 (by decide)

/-- C2: in the assembled parameter mapping, a key present in both the
parameter file and the interactive answers takes the parameter file's value
(conjunct 1); a key the file does not supply is filled from the interactive
answers (conjunct 2); and a key neither supplies falls back to the static
config section (conjunct 3).  The key-distinctness hypotheses say the
interactive answers and the parameter file are Python dicts. -/
theorem assembleParameters_precedence (config interactive paramFile : Params)
    (hi : (paramKeys interactive).Nodup) (hf : (paramKeys paramFile).Nodup) :
    (∀ k v, lookupParam paramFile k = some v →
      lookupParam (assembleParameters config interactive paramFile) k = some v) ∧
    (∀ k v, lookupParam paramFile k = none → lookupParam interactive k = some v →
      lookupParam (assembleParameters config interactive paramFile) k = some v) ∧
    (∀ k, lookupParam paramFile k = none → lookupParam interactive k = none →
      lookupParam (assembleParameters config interactive paramFile) k =
        lookupParam config k) := by
  have hkey : ∀ k, lookupParam (assembleParameters config interactive paramFile) k =
      (lookupParam paramFile k).or ((lookupParam interactive k).or (lookupParam config k)) := by
    intro k
    unfold assembleParameters
    rw [lookupParam_mergeFold paramFile _ k hf, lookupParam_mergeFold interactive _ k hi]
  refine ⟨?_, ?_, ?_⟩
  · intro k v hv
    rw [hkey k, hv]
    rfl
  · intro k v hf0 hv
    rw [hkey k, hf0, hv]
    rfl
  · intro k hf0 hi0
    rw [hkey k, hf0, hi0]
    rfl

/-- C2 witness: the scenario of
`test_create__non_fast_mode_and_job_submission` — parameter file
`{foo ↦ oof}`, interactive answers `{foo ↦ FOO, bar ↦ BAR, baz ↦ BAZ}`, empty
config — assembles to `foo ↦ oof` (file wins the collision) and `bar ↦ BAR`
(interactive fills the gap), exactly as the test asserts of the resulting
`param_dict`. -/
theorem assembleParameters_precedence_witness :
    lookupParam (assembleParameters []
      [("foo", "FOO"), ("bar", "BAR"), ("baz", "BAZ")] [("foo", "oof")]) "foo" =
      some "oof" ∧
    lookupParam (assembleParameters []
      [("foo", "FOO"), ("bar", "BAR"), ("baz", "BAZ")] [("foo", "oof")]) "bar" =
      some "BAR" := by
  constructor
  · exact (assembleParameters_precedence []
      [("foo", "FOO"), ("bar", "BAR"), ("baz", "BAZ")] [("foo", "oof")]
      (by decide) (by decide)).1 "foo" "oof" (by decide)
  · exact (assembleParameters_precedence []
      [("foo", "FOO"), ("bar", "BAR"), ("baz", "BAZ")] [("foo", "oof")]
      (by decide) (by decide)).2.1 "bar" "BAR" (by decide) (by decide)

/-- C3: for every application row still referenced by a job script through
the `job_scripts.application_id` foreign key, `application_delete` fails with
the structured foreign-key-conflict error naming the referencing table, and
the state after the failed delete is the original one — in particular both
the target application row and the dependent job-script row are still
present, unchanged. -/
theorem application_delete_fk_conflict (st : DBState) (application_id : Nat)
    (app : ApplicationRow) (js : JobScriptRow)
    (happ : app ∈ st.applications) (hid : app.id = application_id)
    (hjs : js ∈ st.job_scripts) (href : js.application_id = some application_id) :
    application_delete st application_id = (.error (.fkConflict "job_scripts"), st) ∧
    app ∈ (application_delete st application_id).2.applications ∧
    js ∈ (application_delete st application_id).2.job_scripts := by
  have hany : st.job_scripts.any (fun j => j.application_id == some application_id) = true :=
    List.any_eq_true.mpr ⟨js, hjs, by simp [href]⟩
  have hmain : application_delete st application_id = (.error (.fkConflict "job_scripts"), st) := by
    cases hfind : st.applications.find? (fun r => r.id == application_id) with
    | none =>
      have := List.find?_eq_none.mp hfind app happ
      simp [hid] at this
    | some a =>
      simp [application_delete, hfind, hany]
  exact ⟨hmain, by rw [hmain]; exact happ, by rw [hmain]; exact hjs⟩

/-- C3 witness: a one-application state whose job script references
application 1 — deleting application 1 yields the structured foreign-key
error with both rows intact. -/
theorem application_delete_fk_conflict_witness :
    application_delete
      ⟨[⟨1, "app", some "alpha", "", "a@x.co", "f", "c", false, 0, 0⟩],
       [⟨1, "js", none, "data", "a@x.co", some 1, 0, 0⟩], []⟩ 1 =
      (.error (.fkConflict "job_scripts"),
       ⟨[⟨1, "app", some "alpha", "", "a@x.co", "f", "c", false, 0, 0⟩],
        [⟨1, "js", none, "data", "a@x.co", some 1, 0, 0⟩], []⟩) :=
  (application_delete_fk_conflict
    ⟨[⟨1, "app", some "alpha", "", "a@x.co", "f", "c", false, 0, 0⟩],
     [⟨1, "js", none, "data", "a@x.co", some 1, 0, 0⟩], []⟩ 1
    ⟨1, "app", some "alpha", "", "a@x.co", "f", "c", false, 0, 0⟩
    ⟨1, "js", none, "data", "a@x.co", some 1, 0, 0⟩
    (by decide) rfl (by decide) rfl).1

/-- C4: creating an application whose identifier equals the identifier of an
already existing row yields HTTP 409, and, the insert having been rolled back
by the surrounding transaction, the state — in particular the applications
table — is exactly the one before the request. -/
theorem applications_create_duplicate_conflict (st : DBState) (now : Timestamp)
    (userEmail : String) (application : ApplicationCreateRequest) (ident : String)
    (r : ApplicationRow) (hr : r ∈ st.applications)
    (hreq : application.application_identifier = some ident)
    (hrow : r.application_identifier = some ident) :
    applications_create st now userEmail application =
      (.error (.httpError 409 "duplicate key value violates unique constraint"), st) := by
  have hany : st.applications.any
      (fun a => a.application_identifier == some ident) = true :=
    List.any_eq_true.mpr ⟨r, hr, by simp [hrow]⟩
  simp [applications_create, hreq, hany]

/-- C4 witness: creating a second application with identifier `alpha` while a
row with identifier `alpha` exists is rejected with 409 and persists
nothing. -/
theorem applications_create_duplicate_conflict_witness :
    applications_create
      ⟨[⟨1, "app", some "alpha", "", "a@x.co", "f", "c", false, 0, 0⟩], [], []⟩ 9 "b@x.co"
      ⟨"other", some "alpha", none, "f2", "c2"⟩ =
      (.error (.httpError 409 "duplicate key value violates unique constraint"),
       ⟨[⟨1, "app", some "alpha", "", "a@x.co", "f", "c", false, 0, 0⟩], [], []⟩) :=
  applications_create_duplicate_conflict
    ⟨[⟨1, "app", some "alpha", "", "a@x.co", "f", "c", false, 0, 0⟩], [], []⟩ 9 "b@x.co"
    ⟨"other", some "alpha", none, "f2", "c2"⟩ "alpha"
    ⟨1, "app", some "alpha", "", "a@x.co", "f", "c", false, 0, 0⟩
    (by decide) rfl rfl

/-- C5, counterexample to the claim as stated: row 1 exists, and the partial
update request supplying only `application_identifier := "beta"` — an
identifier already carried by row 2 — does not change the supplied field and
does not return the updated row: the unique constraint fires, the handler
answers HTTP 409, the transaction is rolled back, and the row keeps its prior
values (its `updated_at` does not advance either). -/
theorem application_update_conflict_counterexample :
    application_update
      ⟨[⟨1, "a", some "alpha", "", "a@x.co", "f", "c", false, 0, 0⟩,
        ⟨2, "b", some "beta", "", "b@x.co", "f", "c", false, 0, 0⟩], [], []⟩ 5 1
      ⟨none, some "beta", none, none, none⟩ =
      (.error (.httpError 409 "duplicate key value violates unique constraint"),
       ⟨[⟨1, "a", some "alpha", "", "a@x.co", "f", "c", false, 0, 0⟩,
         ⟨2, "b", some "beta", "", "b@x.co", "f", "c", false, 0, 0⟩], [], []⟩) := by
  rfl

/-- C5, amended: for every existing row and every partial update request
whose supplied identifier (if any) does not collide with a different row's
identifier, the update changes exactly the supplied fields — each supplied
field takes the request's value, each omitted field keeps its prior value,
the server-managed `updated_at` is stamped to the current time (hence
advances whenever that time is later), every other row is untouched — and the
operation returns the updated row. -/
theorem application_update_partial (st : DBState) (now : Timestamp)
    (application_id : Nat) (application : ApplicationUpdateRequest)
    (app : ApplicationRow)
    (hn : (st.applications.map ApplicationRow.id).Nodup)
    (happ : app ∈ st.applications) (hid : app.id = application_id)
    (hnoconf : ∀ ident, application.application_identifier = some ident →
      ∀ r ∈ st.applications, r.id ≠ application_id →
        r.application_identifier ≠ some ident) :
    (application_update st now application_id application).1 =
      .ok (applyApplicationUpdate application now app) ∧
    (application.application_name = none →
      (applyApplicationUpdate application now app).application_name =
        app.application_name) ∧
    (∀ v, application.application_name = some v →
      (applyApplicationUpdate application now app).application_name = v) ∧
    (application.application_identifier = none →
      (applyApplicationUpdate application now app).application_identifier =
        app.application_identifier) ∧
    (∀ v, application.application_identifier = some v →
      (applyApplicationUpdate application now app).application_identifier = some v) ∧
    (application.application_description = none →
      (applyApplicationUpdate application now app).application_description =
        app.application_description) ∧
    (∀ v, application.application_description = some v →
      (applyApplicationUpdate application now app).application_description = v) ∧
    (application.application_file = none →
      (applyApplicationUpdate application now app).application_file =
        app.application_file) ∧
    (∀ v, application.application_file = some v →
      (applyApplicationUpdate application now app).application_file = v) ∧
    (application.application_config = none →
      (applyApplicationUpdate application now app).application_config =
        app.application_config) ∧
    (∀ v, application.application_config = some v →
      (applyApplicationUpdate application now app).application_config = v) ∧
    (applyApplicationUpdate application now app).id = app.id ∧
    (applyApplicationUpdate application now app).application_owner_email =
      app.application_owner_email ∧
    (applyApplicationUpdate application now app).application_uploaded =
      app.application_uploaded ∧
    (applyApplicationUpdate application now app).created_at = app.created_at ∧
    (applyApplicationUpdate application now app).updated_at = now ∧
    (app.updated_at < now →
      app.updated_at < (applyApplicationUpdate application now app).updated_at) ∧
    (∀ other ∈ st.applications, other.id ≠ application_id →
      other ∈ (application_update st now application_id application).2.applications) := by
  have hfind := find?_map_update st.applications app application_id
    (applyApplicationUpdate application now) (fun r => rfl) hn happ hid
  have main : application_update st now application_id application =
      (.ok (applyApplicationUpdate application now app),
       { st with applications := st.applications.map (fun r =>
           if r.id == application_id then applyApplicationUpdate application now r
           else r) }) := by
    cases hai : application.application_identifier with
    | none =>
      simp only [application_update, hai]
      rw [hfind]
      simp
    | some ident =>
      have hany : st.applications.any (fun r =>
          !(r.id == application_id) && r.application_identifier == some ident) = false := by
        rw [List.any_eq_false]
        intro r hr hcontra
        rw [Bool.and_eq_true] at hcontra
        have h1 : r.id ≠ application_id := by
          have := hcontra.1
          simp only [Bool.not_eq_true', beq_eq_false_iff_ne, ne_eq] at this
          exact this
        have h2 : r.application_identifier = some ident := by
          have := hcontra.2
          simpa using this
        exact hnoconf ident hai r hr h1 h2
      simp only [application_update, hai, hany, Bool.false_eq_true, if_false]
      rw [hfind]
  refine ⟨by rw [main], ?_, ?_, ?_, ?_, ?_, ?_, ?_, ?_, ?_, ?_, rfl, rfl, rfl, rfl, rfl,
    ?_, ?_⟩
  · intro h; simp [applyApplicationUpdate, h]
  · intro v h; simp [applyApplicationUpdate, h]
  · intro h; simp [applyApplicationUpdate, h]
  · intro v h; simp [applyApplicationUpdate, h]
  · intro h; simp [applyApplicationUpdate, h]
  · intro v h; simp [applyApplicationUpdate, h]
  · intro h; simp [applyApplicationUpdate, h]
  · intro v h; simp [applyApplicationUpdate, h]
  · intro h; simp [applyApplicationUpdate, h]
  · intro v h; simp [applyApplicationUpdate, h]
  · intro h
    simpa [applyApplicationUpdate] using h
  · intro other hmem hne
    rw [main]
    exact mem_map_update_of_ne st.applications application_id
      (applyApplicationUpdate application now) other hmem hne

/-- C5 witness: updating only the name of the single row (id 1) at time 7
returns the row with the new name, the untouched config, and `updated_at`
stamped to 7. -/
theorem application_update_partial_witness :
    (application_update
      ⟨[⟨1, "a", some "alpha", "", "a@x.co", "f", "c", false, 0, 0⟩], [], []⟩ 7 1
      ⟨some "newname", none, none, none, none⟩).1 =
      .ok (applyApplicationUpdate ⟨some "newname", none, none, none, none⟩ 7
        ⟨1, "a", some "alpha", "", "a@x.co", "f", "c", false, 0, 0⟩) ∧
    (applyApplicationUpdate ⟨some "newname", none, none, none, none⟩ 7
      ⟨1, "a", some "alpha", "", "a@x.co", "f", "c", false, 0, 0⟩).application_name =
      "newname" ∧
    (applyApplicationUpdate ⟨some "newname", none, none, none, none⟩ 7
      ⟨1, "a", some "alpha", "", "a@x.co", "f", "c", false, 0, 0⟩).application_config =
      "c" ∧
    (applyApplicationUpdate ⟨some "newname", none, none, none, none⟩ 7
      ⟨1, "a", some "alpha", "", "a@x.co", "f", "c", false, 0, 0⟩).updated_at = 7 := by
  have h := application_update_partial
    ⟨[⟨1, "a", some "alpha", "", "a@x.co", "f", "c", false, 0, 0⟩], [], []⟩ 7 1
    ⟨some "newname", none, none, none, none⟩
    ⟨1, "a", some "alpha", "", "a@x.co", "f", "c", false, 0, 0⟩
    (by decide) (by decide) rfl
    (fun ident hident => absurd hident (by simp))
  exact ⟨h.1, h.2.2.1 "newname" rfl, h.2.2.2.2.2.2.2.2.2.1 rfl,
    h.2.2.2.2.2.2.2.2.2.2.2.2.2.2.2.1⟩

/-- C6: an upload whose declared content length exceeds the configured
maximum is rejected with HTTP 413 with the state — object storage and
database alike — exactly as before, the size check running before any
storage write; an upload at or under the limit stores the file under the
application's key and sets the uploaded flag on every row carrying the
target id. -/
theorem applications_upload_size_limit (st : DBState) (maxUploadFileSize : Nat)
    (now : Timestamp) (application_id : Nat) (upload_file : String)
    (content_length : Nat) :
    (content_length > maxUploadFileSize →
      applications_upload st maxUploadFileSize now application_id upload_file
          content_length =
        (.error (.httpError 413
          "Uploaded files cannot exceed MAX_UPLOAD_FILE_SIZE bytes."), st)) ∧
    (content_length ≤ maxUploadFileSize →
      (applications_upload st maxUploadFileSize now application_id upload_file
          content_length).1 = .ok () ∧
      lookupParam (applications_upload st maxUploadFileSize now application_id
          upload_file content_length).2.s3_objects (toString application_id) =
        some upload_file ∧
      (∀ r ∈ st.applications, r.id = application_id →
        { r with application_uploaded := true, updated_at := now } ∈
          (applications_upload st maxUploadFileSize now application_id upload_file
            content_length).2.applications)) := by
  constructor
  · intro hgt
    simp [applications_upload, hgt]
  · intro hle
    have hngt : ¬content_length > maxUploadFileSize := Nat.not_lt.mpr hle
    refine ⟨by simp [applications_upload, hngt], ?_, ?_⟩
    · simp only [applications_upload, if_neg hngt]
      exact lookupParam_setParam_self st.s3_objects (toString application_id) upload_file
    · intro r hr hid
      simp only [applications_upload, if_neg hngt]
      exact List.mem_map.mpr ⟨r, hr, by simp [hid]⟩

/-- C6 witness: with limit 10, an upload declaring 20 bytes is rejected with
413 leaving the one-row state untouched, while an upload declaring 3 bytes
stores the object under key "1" and flips row 1's uploaded flag. -/
theorem applications_upload_size_limit_witness :
    applications_upload
      ⟨[⟨1, "a", some "alpha", "", "a@x.co", "f", "c", false, 0, 0⟩], [], []⟩ 10 5 1
      "tar" 20 =
      (.error (.httpError 413
        "Uploaded files cannot exceed MAX_UPLOAD_FILE_SIZE bytes."),
       ⟨[⟨1, "a", some "alpha", "", "a@x.co", "f", "c", false, 0, 0⟩], [], []⟩) ∧
    lookupParam (applications_upload
      ⟨[⟨1, "a", some "alpha", "", "a@x.co", "f", "c", false, 0, 0⟩], [], []⟩ 10 5 1
      "tar" 3).2.s3_objects "1" = some "tar" ∧
    (⟨1, "a", some "alpha", "", "a@x.co", "f", "c", true, 0, 5⟩ : ApplicationRow) ∈
      (applications_upload
        ⟨[⟨1, "a", some "alpha", "", "a@x.co", "f", "c", false, 0, 0⟩], [], []⟩ 10 5 1
        "tar" 3).2.applications := by
  refine ⟨(applications_upload_size_limit
      ⟨[⟨1, "a", some "alpha", "", "a@x.co", "f", "c", false, 0, 0⟩], [], []⟩ 10 5 1
      "tar" 20).1 (by decide), ?_, ?_⟩
  · exact ((applications_upload_size_limit
      ⟨[⟨1, "a", some "alpha", "", "a@x.co", "f", "c", false, 0, 0⟩], [], []⟩ 10 5 1
      "tar" 3).2 (by decide)).2.1
  · exact ((applications_upload_size_limit
      ⟨[⟨1, "a", some "alpha", "", "a@x.co", "f", "c", false, 0, 0⟩], [], []⟩ 10 5 1
      "tar" 3).2 (by decide)).2.2
      ⟨1, "a", some "alpha", "", "a@x.co", "f", "c", false, 0, 0⟩ (by decide) rfl

/-- C9: the upload handler never verifies that the target application row
exists — for an id carried by no row, an upload within the size limit still
succeeds (HTTP 201 rather than a not-found error), writes the file to object
storage, and its UPDATE matches zero rows, leaving the applications table
exactly as it was. -/
theorem applications_upload_missing_row (st : DBState) (maxUploadFileSize : Nat)
    (now : Timestamp) (application_id : Nat) (upload_file : String)
    (content_length : Nat) (hle : content_length ≤ maxUploadFileSize)
    (habsent : ∀ r ∈ st.applications, r.id ≠ application_id) :
    (applications_upload st maxUploadFileSize now application_id upload_file
        content_length).1 = .ok () ∧
    (applications_upload st maxUploadFileSize now application_id upload_file
        content_length).2.applications = st.applications ∧
    lookupParam (applications_upload st maxUploadFileSize now application_id
        upload_file content_length).2.s3_objects (toString application_id) =
      some upload_file := by
  have hngt : ¬content_length > maxUploadFileSize := Nat.not_lt.mpr hle
  refine ⟨by simp [applications_upload, hngt], ?_, ?_⟩
  · simp only [applications_upload, if_neg hngt]
    exact map_update_eq_of_no_match st.applications application_id
      (fun r => { r with application_uploaded := true, updated_at := now }) habsent
  · simp only [applications_upload, if_neg hngt]
    exact lookupParam_setParam_self st.s3_objects (toString application_id) upload_file

/-- C9 witness: uploading for the nonexistent application id 99 into a state
holding only row 1 succeeds, stores the object under key "99", and leaves the
applications table unchanged. -/
theorem applications_upload_missing_row_witness :
    (applications_upload
      ⟨[⟨1, "a", some "alpha", "", "a@x.co", "f", "c", false, 0, 0⟩], [], []⟩ 10 5 99
      "tar" 3).1 = .ok () ∧
    (applications_upload
      ⟨[⟨1, "a", some "alpha", "", "a@x.co", "f", "c", false, 0, 0⟩], [], []⟩ 10 5 99
      "tar" 3).2.applications =
      [⟨1, "a", some "alpha", "", "a@x.co", "f", "c", false, 0, 0⟩] ∧
    lookupParam (applications_upload
      ⟨[⟨1, "a", some "alpha", "", "a@x.co", "f", "c", false, 0, 0⟩], [], []⟩ 10 5 99
      "tar" 3).2.s3_objects "99" = some "tar" :=
  applications_upload_missing_row
    ⟨[⟨1, "a", some "alpha", "", "a@x.co", "f", "c", false, 0, 0⟩], [], []⟩ 10 5 99
    "tar" 3 (by decide) (by decide)

/-- C7: with the owner-only filter enabled, every row the list endpoint
returns carries the caller's email (soundness), and every stored row carrying
the caller's email that passes the other active filter (`all`, which hides
identifier-less rows when unset) appears on some page of the paginated
result (completeness). -/
theorem applications_list_owner_filter (st : DBState) (userEmail : String)
    (all : Bool) (page limit : Nat) :
    (∀ r ∈ applications_list st userEmail true all page limit,
      r.application_owner_email = userEmail) ∧
    (0 < limit → ∀ r ∈ st.applications, r.application_owner_email = userEmail →
      (all = true ∨ r.application_identifier ≠ none) →
      ∃ pg, r ∈ applications_list st userEmail true all pg limit) := by
  constructor
  · intro r hr
    have hr' : r ∈ (((if all then
        st.applications.filter (fun a => a.application_owner_email == userEmail)
      else
        (st.applications.filter (fun a => a.application_owner_email == userEmail)).filter
          (fun a => !a.application_identifier.isNone)).drop (page * limit)).take limit) := hr
    have hq := List.mem_of_mem_drop (List.mem_of_mem_take hr')
    have howned : r ∈ st.applications.filter
        (fun a => a.application_owner_email == userEmail) := by
      cases all
      · exact (List.mem_filter.mp hq).1
      · exact hq
    have := (List.mem_filter.mp howned).2
    simpa using this
  · intro hlimit r hmem howner hident
    have howned : r ∈ st.applications.filter
        (fun a => a.application_owner_email == userEmail) :=
      List.mem_filter.mpr ⟨hmem, by simp [howner]⟩
    have hq : r ∈ (if all then
        st.applications.filter (fun a => a.application_owner_email == userEmail)
      else
        (st.applications.filter (fun a => a.application_owner_email == userEmail)).filter
          (fun a => !a.application_identifier.isNone)) := by
      cases all
      · rcases hident with h | h
        · exact absurd h (by simp)
        · exact List.mem_filter.mpr ⟨howned, by simp [Option.isSome_iff_ne_none, h]⟩
      · exact howned
    obtain ⟨pg, hpg⟩ := exists_page_mem _ r hq limit hlimit
    exact ⟨pg, hpg⟩

/-- C7 witness: in a two-owner, three-row state with page size 1, row 1 is on
the first page of the owner-only listing for `a@x.co`, and the soundness half
of the theorem applied to that row confirms its owner is the caller. -/
theorem applications_list_owner_filter_witness :
    (⟨1, "a", some "alpha", "", "a@x.co", "f", "c", false, 0, 0⟩ : ApplicationRow) ∈
      applications_list
        ⟨[⟨1, "a", some "alpha", "", "a@x.co", "f", "c", false, 0, 0⟩,
          ⟨2, "b", some "beta", "", "b@x.co", "f", "c", false, 0, 0⟩,
          ⟨3, "c", some "gamma", "", "a@x.co", "f", "c", false, 0, 0⟩], [], []⟩
        "a@x.co" true false 0 1 ∧
    (⟨1, "a", some "alpha", "", "a@x.co", "f", "c", false, 0, 0⟩ :
      ApplicationRow).application_owner_email = "a@x.co" := by
  constructor
  · decide
  · exact (applications_list_owner_filter
      ⟨[⟨1, "a", some "alpha", "", "a@x.co", "f", "c", false, 0, 0⟩,
        ⟨2, "b", some "beta", "", "b@x.co", "f", "c", false, 0, 0⟩,
        ⟨3, "c", some "gamma", "", "a@x.co", "f", "c", false, 0, 0⟩], [], []⟩
      "a@x.co" false 0 1).1 _ (by decide)

/-- C8: the get-by-id-or-identifier lookup dispatches on the argument's type:
a string argument matches on the `identifier` column (conjunct 1, returning
the first — under uniqueness, the only — matching row), an integer argument
matches on the `id` column (conjunct 2), either lookup returns `none` when no
row matches (conjuncts 3 and 4), and an argument of any other type raises
`ValueError` (conjunct 5). -/
theorem job_script_template_get_dispatch (rows : List JobScriptTemplateRow)
    (s : String) (n : Int) :
    ((rows.filter (fun r => r.identifier == some s)).length ≤ 1 →
      job_script_template_get rows (.ofStr s) =
        .ok (rows.find? (fun r => r.identifier == some s))) ∧
    ((rows.filter (fun r => r.id == n)).length ≤ 1 →
      job_script_template_get rows (.ofInt n) =
        .ok (rows.find? (fun r => r.id == n))) ∧
    ((∀ r ∈ rows, ¬(r.identifier == some s)) →
      job_script_template_get rows (.ofStr s) = .ok none) ∧
    ((∀ r ∈ rows, ¬(r.id == n)) →
      job_script_template_get rows (.ofInt n) = .ok none) ∧
    job_script_template_get rows .ofOther =
      .error "id_or_identifier must be a string or integer" := by
  refine ⟨?_, ?_, ?_, ?_, rfl⟩
  · intro hlen
    show scalar_one_or_none (rows.filter (fun r => r.identifier == some s)) = _
    rw [scalar_one_or_none_eq_head? _ hlen, List.filter_head?]
  · intro hlen
    show scalar_one_or_none (rows.filter (fun r => r.id == n)) = _
    rw [scalar_one_or_none_eq_head? _ hlen, List.filter_head?]
  · intro hforall
    show scalar_one_or_none (rows.filter (fun r => r.identifier == some s)) = _
    rw [List.filter_eq_nil_iff.mpr hforall]
    rfl
  · intro hforall
    show scalar_one_or_none (rows.filter (fun r => r.id == n)) = _
    rw [List.filter_eq_nil_iff.mpr hforall]
    rfl

/-- C8 witness: over two template rows, the string lookup `"tmpl-a"` returns
the row carrying that identifier, the integer lookup `5` matches no row and
returns `none`, and the other-typed argument errors. -/
theorem job_script_template_get_dispatch_witness :
    job_script_template_get
      [⟨1, some "tmpl-a", "t1", "o@x.co"⟩, ⟨2, none, "t2", "o@x.co"⟩]
      (.ofStr "tmpl-a") =
      .ok (List.find? (fun r => r.identifier == some "tmpl-a")
        [⟨1, some "tmpl-a", "t1", "o@x.co"⟩, ⟨2, none, "t2", "o@x.co"⟩]) ∧
    job_script_template_get
      [⟨1, some "tmpl-a", "t1", "o@x.co"⟩, ⟨2, none, "t2", "o@x.co"⟩]
      (.ofInt 5) = .ok none ∧
    job_script_template_get
      [⟨1, some "tmpl-a", "t1", "o@x.co"⟩, ⟨2, none, "t2", "o@x.co"⟩]
      .ofOther = .error "id_or_identifier must be a string or integer" := by
  refine ⟨?_, ?_, ?_⟩
  · exact (job_script_template_get_dispatch
      [⟨1, some "tmpl-a", "t1", "o@x.co"⟩, ⟨2, none, "t2", "o@x.co"⟩]
      "tmpl-a" 5).1 (by decide)
  · exact (job_script_template_get_dispatch
      [⟨1, some "tmpl-a", "t1", "o@x.co"⟩, ⟨2, none, "t2", "o@x.co"⟩]
      "tmpl-a" 5).2.2.2.1 (by decide)
  · exact (job_script_template_get_dispatch
      [⟨1, some "tmpl-a", "t1", "o@x.co"⟩, ⟨2, none, "t2", "o@x.co"⟩]
      "tmpl-a" 5).2.2.2.2

/-- C10: for an existing application whose uploaded flag is false, the
tarball-delete endpoint answers success while performing no object-storage
delete and no database write — the state is returned untouched — and running
the endpoint twice in a row therefore leaves exactly the state of running it
once. -/
theorem applications_delete_not_uploaded (st : DBState) (now : Timestamp)
    (application_id : Nat) (app : ApplicationRow)
    (hn : (st.applications.map ApplicationRow.id).Nodup)
    (happ : app ∈ st.applications) (hid : app.id = application_id)
    (hup : app.application_uploaded = false) :
    applications_delete st now application_id = (.ok (), st) ∧
    applications_delete (applications_delete st now application_id).2 now
        application_id =
      applications_delete st now application_id := by
  subst hid
  have hfind : st.applications.find? (fun r => r.id == app.id) = some app :=
    find?_id_of_mem_nodup st.applications app hn happ
  have h1 : applications_delete st now app.id = (.ok (), st) := by
    simp [applications_delete, hfind, hup]
  exact ⟨h1, by rw [h1]; exact h1⟩

/-- C10 witness: tarball-delete on the not-uploaded row 1 returns success
with the state untouched, and a second application of the endpoint changes
nothing further. -/
theorem applications_delete_not_uploaded_witness :
    applications_delete
      ⟨[⟨1, "a", some "alpha", "", "a@x.co", "f", "c", false, 0, 0⟩], [], []⟩ 5 1 =
      (.ok (),
       ⟨[⟨1, "a", some "alpha", "", "a@x.co", "f", "c", false, 0, 0⟩], [], []⟩) ∧
    applications_delete (applications_delete
      ⟨[⟨1, "a", some "alpha", "", "a@x.co", "f", "c", false, 0, 0⟩], [], []⟩ 5 1).2 5 1 =
      applications_delete
        ⟨[⟨1, "a", some "alpha", "", "a@x.co", "f", "c", false, 0, 0⟩], [], []⟩ 5 1 :=
  applications_delete_not_uploaded
    ⟨[⟨1, "a", some "alpha", "", "a@x.co", "f", "c", false, 0, 0⟩], [], []⟩ 5 1
    ⟨1, "a", some "alpha", "", "a@x.co", "f", "c", false, 0, 0⟩
    (by decide) (by decide) rfl rfl
